import Mathlib

/-!
Verification of the MeshCache coordinator (src/core/src/builders/MeshCache.cpp)
against its natural-language specification.

The embedding translates `MeshCache::MeshCacheImpl` into pure state-passing
functions.  The filesystem and the writer-session registry (`cachingQuads_`)
become association lists inside `CacheState`; every operation additionally
returns the list of observable events (file probes, writes, deletes, registry
updates, downstream callback invocations) in the order the C++ code performs
them.  Collaborators that live outside the shown translation unit (the mesh
and element codecs, the quadkey string form, the cancellation token) are
modelled from the spec and marked as such.
-/

set_option maxHeartbeats 1000000

namespace MeshCacheSpec

/-- Byte values as stored in a cache file. -/
abbrev Byte := Fin 256

/-- Truncate a natural number to one byte, as a raw memory write does. -/
def byteOf (n : Nat) : Byte := ⟨n % 256, Nat.mod_lt n (by norm_num)⟩

/-- Little-endian 8-byte image of a 64-bit value, as produced by
`stream.write(reinterpret_cast<const char*>(&element.id), sizeof(element.id))`. -/
def le64 (n : Nat) : List Byte :=
  [byteOf n, byteOf (n / 256), byteOf (n / 256 / 256), byteOf (n / 256 / 256 / 256),
   byteOf (n / 256 / 256 / 256 / 256), byteOf (n / 256 / 256 / 256 / 256 / 256),
   byteOf (n / 256 / 256 / 256 / 256 / 256 / 256),
   byteOf (n / 256 / 256 / 256 / 256 / 256 / 256 / 256)]

/-- Decode a little-endian byte sequence back into a natural number. -/
def unle64 (bs : List Byte) : Nat := bs.foldr (fun b acc => b.val + 256 * acc) 0

/-- Builder-produced geometry value; opaque to the cache beyond its codec bytes. -/
structure Mesh where
  payload : List Byte
deriving DecidableEq

/-- Builder-produced discrete entity: a 64-bit identifier plus attribute payload. -/
structure Element where
  id : Nat
  payload : List Byte
deriving DecidableEq

/-- Modelled from the spec: the mesh codec `MeshStream::write(stream, mesh)`
(its definition is outside the shown source).  The opaque body is serialized
as an 8-byte length followed by the body bytes. -/
def meshWrite (m : Mesh) : List Byte := le64 m.payload.length ++ m.payload

/-- Modelled from the spec: the mesh codec `MeshStream::read(stream)`, the
inverse of `meshWrite`; returns the decoded mesh and the unconsumed suffix. -/
def meshRead (bs : List Byte) : Option (Mesh × List Byte) :=
  if 8 ≤ bs.length ∧ unle64 (bs.take 8) ≤ (bs.drop 8).length then
    some (⟨(bs.drop 8).take (unle64 (bs.take 8))⟩, (bs.drop 8).drop (unle64 (bs.take 8)))
  else none

/-- Modelled from the spec: the element codec `ElementStream::write(stream, element)`.
The identifier is stored outside the codec's own payload, so only the attribute
body is serialized. -/
def elementWrite (e : Element) : List Byte := le64 e.payload.length ++ e.payload

/-- Modelled from the spec: the element codec `ElementStream::read(stream, id)`,
which rebuilds the element from an externally supplied identifier. -/
def elementRead (bs : List Byte) (id : Nat) : Option (Element × List Byte) :=
  if 8 ≤ bs.length ∧ unle64 (bs.take 8) ≤ (bs.drop 8).length then
    some (⟨id, (bs.drop 8).take (unle64 (bs.take 8))⟩, (bs.drop 8).drop (unle64 (bs.take 8)))
  else none

/-- Spatial tile address: level of detail plus a quadtree path; equality and
ordering are structural, as required for the registry key. -/
structure QuadKey where
  levelOfDetail : Nat
  tileX : Nat
  tileY : Nat
deriving DecidableEq

/-- Modelled from the spec: `GeoUtils::quadKeyToString`, the canonical string
form of a quadkey (its definition is outside the shown source); any pure
injection into strings is faithful to the boundary contract. -/
def quadKeyToString (q : QuadKey) : String :=
  toString q.tileX ++ "_" ++ toString q.tileY ++ "_" ++ toString q.levelOfDetail

/-- Observable events, in the order the C++ code performs them: file system
operations, registry bookkeeping, and downstream callback invocations. -/
inductive Event where
  | regFind (q : QuadKey)
  | regInsert (q : QuadKey)
  | regErase (q : QuadKey)
  | fileProbe (path : String)
  | fileOpenWrite (path : String)
  | fileWrite (path : String) (bytes : List Byte)
  | fileOpenRead (path : String)
  | fileDelete (path : String)
  | meshCb (m : Mesh)
  | elemCb (e : Element)
deriving DecidableEq

/-- Association-list lookup keyed on the first component. -/
def alookup {α β : Type} [DecidableEq α] : List (α × β) → α → Option β
  | [], _ => none
  | kv :: rest, a => if kv.1 = a then some kv.2 else alookup rest a

/-- Association-list erase of every binding for a key. -/
def aerase {α β : Type} [DecidableEq α] : List (α × β) → α → List (α × β)
  | [], _ => []
  | kv :: rest, a => if kv.1 = a then aerase rest a else kv :: aerase rest a

/-- Association-list overwrite-or-insert of a binding. -/
def aupdate {α β : Type} [DecidableEq α] : List (α × β) → α → β → List (α × β)
  | [], a, b => [(a, b)]
  | kv :: rest, a, b => if kv.1 = a then (a, b) :: rest else kv :: aupdate rest a b

/-- Mutable world threaded through the model: the filesystem (path to file
contents) and the writer-session registry `cachingQuads_` (quadkey to the
path its open output stream appends to). -/
structure CacheState where
  files : List (String × List Byte)
  sessions : List (QuadKey × String)
deriving DecidableEq

/-- Callback type of the model: a callback consumes a value, may act on the
world, and yields the events it caused. -/
abbrev MeshCallback := Mesh → CacheState → CacheState × List Event

/-- Element counterpart of `MeshCallback`. -/
abbrev ElementCallback := Element → CacheState → CacheState × List Event

/-- Immutable bundle passed into the build pipeline.  `styleTag` stands for
`context.styleProvider.getTag()`; `stringTable` and `eleProvider` are opaque
collaborator handles that the cache only passes through. -/
structure BuilderContext where
  quadKey : QuadKey
  styleTag : String
  stringTable : Nat
  eleProvider : Nat
  meshCallback : MeshCallback
  elementCallback : ElementCallback

/-- Modelled from the spec: the cancellation token, a polled boolean flag set
externally at any time; `isCancelledAt n` is its value at the n-th poll. -/
structure CancellationToken where
  isCancelledAt : Nat → Bool

/-- Token that is never cancelled. -/
def tokNone : CancellationToken := ⟨fun _ => false⟩

/-- Token that is already set at every poll. -/
def tokAll : CancellationToken := ⟨fun _ => true⟩

/-- Does a readable file exist at the path (the `std::ifstream(path).good()` probe). -/
def fileExists (st : CacheState) (p : String) : Bool := (alookup st.files p).isSome

/-- Contents of the file at a path, empty when absent. -/
def fileContent (st : CacheState) (p : String) : List Byte := (alookup st.files p).getD []

/-- Append bytes through a session's open stream. -/
def fileWriteBytes (st : CacheState) (p : String) (bs : List Byte) : CacheState :=
  { st with files := aupdate st.files p (fileContent st p ++ bs) }

/-- Delete a file (`std::remove`). -/
def fileRemove (st : CacheState) (p : String) : CacheState :=
  { st with files := aerase st.files p }

/-- Open a file for append (`out|binary|app|ate`): creates it empty when
absent, keeps its contents when present. -/
def fileOpenAppend (st : CacheState) (p : String) : CacheState :=
  if fileExists st p then st else { st with files := (p, []) :: st.files }

/-- Registry insertion via `std::map::insert`: a no-op when the key is
already present — the existing binding is never overwritten. -/
def sessionInsert (st : CacheState) (q : QuadKey) (p : String) : CacheState :=
  if (alookup st.sessions q).isSome then st else { st with sessions := (q, p) :: st.sessions }

/-- Registry removal via `std::map::erase`. -/
def sessionErase (st : CacheState) (q : QuadKey) : CacheState :=
  { st with sessions := aerase st.sessions q }

/-- `MeshCacheImpl::getFilePath`: `dataPath_ << "cache/" << tag << "/" << lod
<< "/" << quadKeyToString(quadKey) << ".mesh"`. -/
def getFilePath (dataPath : String) (ctx : BuilderContext) : String :=
  dataPath ++ "cache/" ++ ctx.styleTag ++ "/" ++ toString ctx.quadKey.levelOfDetail ++ "/"
    ++ quadKeyToString ctx.quadKey ++ ".mesh"

/-- `MeshCacheImpl::isCacheHit`: the quadkey has no open session and a
readable file exists at the path. -/
def isCacheHit (st : CacheState) (q : QuadKey) (p : String) : Bool :=
  (alookup st.sessions q).isNone && fileExists st p

/-- Events of one `isCacheHit` evaluation; `&&` short-circuits, so the file
probe happens only when no session is open. -/
def isCacheHitEvents (st : CacheState) (q : QuadKey) (p : String) : List Event :=
  Event.regFind q :: (if (alookup st.sessions q).isNone then [Event.fileProbe p] else [])

/-- The mesh half of the write interceptor: persist the tag byte `0x01` and
the codec bytes through the session's stream, then forward the unmodified
mesh to the wrapped downstream callback. -/
def wrapMeshCallback (p : String) (cb : MeshCallback) : MeshCallback :=
  fun m st =>
    let bytes := (1 : Byte) :: meshWrite m
    let st1 := fileWriteBytes st p bytes
    let r := cb m st1
    (r.1, Event.fileWrite p bytes :: r.2)

/-- The element half of the write interceptor: persist the tag byte `0x00`,
the 8-byte little-endian identifier and the codec bytes, then forward the
unmodified element downstream. -/
def wrapElementCallback (p : String) (cb : ElementCallback) : ElementCallback :=
  fun e st =>
    let bytes := (0 : Byte) :: (le64 e.id ++ elementWrite e)
    let st1 := fileWriteBytes st p bytes
    let r := cb e st1
    (r.1, Event.fileWrite p bytes :: r.2)

/-- C-locale whitespace, which the formatted extraction `file >> type`
skips before storing a character (skipws is set by default). -/
def isWhitespaceByte (b : Byte) : Bool :=
  b.val == 0x20 || b.val == 0x09 || b.val == 0x0A || b.val == 0x0B ||
  b.val == 0x0C || b.val == 0x0D

/-- Drop the whitespace prefix, as the input sentry of `file >> type` does. -/
def skipWs : List Byte → List Byte
  | [] => []
  | b :: bs => if isWhitespaceByte b then skipWs bs else b :: bs

/-- One formatted tag extraction `file >> type`: skip whitespace, then take
one byte; `none` is an extraction failure (end of stream). -/
def readTag (bs : List Byte) : Option (Byte × List Byte) :=
  match skipWs bs with
  | [] => none
  | t :: rest => some (t, rest)

/-- Outcome of one replay: normal completion (end of stream or cancellation),
the `std::invalid_argument("Cannot read cache.")` throw on an unrecognized
tag, a codec failure on a truncated payload, or fuel exhaustion (never
reached for adequate fuel, see `readLoop_no_fuelOut`). -/
inductive ReadOutcome where
  | ok
  | formatError
  | codecStuck
  | fuelOut
deriving DecidableEq

/-- The loop body of `MeshCacheImpl::readCache`: poll the token, extract a
tag, dispatch on `MeshType` (1) / `ElementType` (0), decode through the
codec, invoke the context's callback, repeat.  `fuel` only bounds the
recursion; one unit is spent per record. -/
def readLoop (ctx : BuilderContext) (tok : CancellationToken) :
    Nat → Nat → List Byte → CacheState → CacheState × List Event × ReadOutcome
  | 0, _, _, st => (st, [], ReadOutcome.fuelOut)
  | fuel + 1, n, bs, st =>
    if tok.isCancelledAt n then (st, [], ReadOutcome.ok)
    else
      match readTag bs with
      | none => (st, [], ReadOutcome.ok)
      | some (t, rest) =>
        if t.val = 1 then
          match meshRead rest with
          | none => (st, [], ReadOutcome.codecStuck)
          | some (m, rest1) =>
            let c := ctx.meshCallback m st
            let r := readLoop ctx tok fuel (n + 1) rest1 c.1
            (r.1, c.2 ++ r.2.1, r.2.2)
        else if t.val = 0 then
          if rest.length < 8 then (st, [], ReadOutcome.codecStuck)
          else
            match elementRead (rest.drop 8) (unle64 (rest.take 8)) with
            | none => (st, [], ReadOutcome.codecStuck)
            | some (e, rest1) =>
              let c := ctx.elementCallback e st
              let r := readLoop ctx tok fuel (n + 1) rest1 c.1
              (r.1, c.2 ++ r.2.1, r.2.2)
        else (st, [], ReadOutcome.formatError)

/-- `MeshCacheImpl::readCache`: open the file, seek to the beginning, run the
replay loop over its contents. -/
def readCache (p : String) (ctx : BuilderContext) (tok : CancellationToken)
    (st : CacheState) : CacheState × List Event × ReadOutcome :=
  let bs := fileContent st p
  let r := readLoop ctx tok (bs.length + 1) 0 bs st
  (r.1, Event.fileOpenRead p :: r.2.1, r.2.2)

/-- `MeshCacheImpl::wrap`: resolve the path; under the lock, return the
context unchanged on a hit, otherwise open the session file for append,
insert the session into the registry, and return a new context whose
callbacks are the interceptor-wrapped versions. -/
def implWrap (dataPath : String) (st : CacheState) (ctx : BuilderContext) :
    CacheState × BuilderContext × List Event :=
  let p := getFilePath dataPath ctx
  if isCacheHit st ctx.quadKey p then
    (st, ctx, isCacheHitEvents st ctx.quadKey p)
  else
    let st1 := fileOpenAppend st p
    let st2 := sessionInsert st1 ctx.quadKey p
    (st2,
     { ctx with
        meshCallback := wrapMeshCallback p ctx.meshCallback,
        elementCallback := wrapElementCallback p ctx.elementCallback },
     isCacheHitEvents st ctx.quadKey p ++ [Event.fileOpenWrite p, Event.regInsert ctx.quadKey])

/-- Result of `MeshCacheImpl::fetch`: `miss` is the `return false` path;
`hit o` is `return true` reached after a replay with outcome `o` (a
`formatError` outcome propagates as an exception in the C++ code). -/
inductive FetchResult where
  | miss
  | hit (outcome : ReadOutcome)
deriving DecidableEq

/-- `MeshCacheImpl::fetch`: resolve the path; under the lock check the hit;
on a miss return false; on a hit, release the lock and replay the file
through the original context's callbacks. -/
def implFetch (dataPath : String) (st : CacheState) (ctx : BuilderContext)
    (tok : CancellationToken) : FetchResult × CacheState × List Event :=
  let p := getFilePath dataPath ctx
  if isCacheHit st ctx.quadKey p then
    let r := readCache p ctx tok st
    (FetchResult.hit r.2.2, r.1, isCacheHitEvents st ctx.quadKey p ++ r.2.1)
  else (FetchResult.miss, st, isCacheHitEvents st ctx.quadKey p)

/-- `MeshCacheImpl::unwrap`: under the lock, look the quadkey up in the
registry; return if absent; close the stream; when the token is cancelled,
delete the cache file before erasing the registry entry. -/
def implUnwrap (dataPath : String) (st : CacheState) (ctx : BuilderContext)
    (tok : CancellationToken) : CacheState × List Event :=
  match alookup st.sessions ctx.quadKey with
  | none => (st, [Event.regFind ctx.quadKey])
  | some _ =>
    if tok.isCancelledAt 0 then
      let p := getFilePath dataPath ctx
      (sessionErase (fileRemove st p) ctx.quadKey,
       [Event.regFind ctx.quadKey, Event.fileDelete p, Event.regErase ctx.quadKey])
    else
      (sessionErase st ctx.quadKey,
       [Event.regFind ctx.quadKey, Event.regErase ctx.quadKey])

/-- The `MeshCache` facade state: the data path given to the constructor and
the process-wide enable flag (`isEnabled_`). -/
structure MeshCache where
  dataPath : String
  isEnabled : Bool

/-- `MeshCache::wrap`: gated by the enable flag; when disabled the input
context is returned unchanged and nothing happens. -/
def MeshCache.wrap (c : MeshCache) (st : CacheState) (ctx : BuilderContext) :
    CacheState × BuilderContext × List Event :=
  if c.isEnabled then implWrap c.dataPath st ctx else (st, ctx, [])

/-- `MeshCache::fetch`: forwards to the implementation unconditionally — the
enable flag is not consulted. -/
def MeshCache.fetch (c : MeshCache) (st : CacheState) (ctx : BuilderContext)
    (tok : CancellationToken) : FetchResult × CacheState × List Event :=
  implFetch c.dataPath st ctx tok

/-- `MeshCache::unwrap`: forwards to the implementation unconditionally — the
enable flag is not consulted. -/
def MeshCache.unwrap (c : MeshCache) (st : CacheState) (ctx : BuilderContext)
    (tok : CancellationToken) : CacheState × List Event :=
  implUnwrap c.dataPath st ctx tok

/-- A pipeline context whose callbacks are the original downstream consumers:
they record the received value as an event and leave the world alone. -/
def mkContext (q : QuadKey) (tag : String) : BuilderContext :=
  { quadKey := q
    styleTag := tag
    stringTable := 0
    eleProvider := 0
    meshCallback := fun m st => (st, [Event.meshCb m])
    elementCallback := fun e st => (st, [Event.elemCb e]) }

/-- Downstream callback invocations among a list of events. -/
def callbackEvents (evs : List Event) : List Event :=
  evs.filter fun ev =>
    match ev with
    | Event.meshCb _ => true
    | Event.elemCb _ => true
    | _ => false

/-- The registry invariant: at most one open session per quadkey. -/
def atMostOneSession (st : CacheState) : Prop :=
  (st.sessions.map Prod.fst).Nodup

/-- Intermediate states of the double-registration scenario: a first session
is opened for the quadkey and writes one record, then a second `wrap` call
for the same quadkey (a miss, because the session is open) produces a second
wrapped context that appends to the same file. -/
def exCtx : BuilderContext := mkContext ⟨1, 0, 0⟩ "t"

/-- State after the first `wrap` on an empty world. -/
def cexSt1 : CacheState := (implWrap "d/" ⟨[], []⟩ exCtx).1

/-- Wrapped context returned by the first `wrap`. -/
def cexCtx1 : BuilderContext := (implWrap "d/" ⟨[], []⟩ exCtx).2.1

/-- State after the first session wrote one mesh record. -/
def cexSt2 : CacheState := (cexCtx1.meshCallback ⟨[]⟩ cexSt1).1

/-- Wrapped context returned by the second `wrap` (a miss: the session is open). -/
def cexCtx2 : BuilderContext := (implWrap "d/" cexSt2 exCtx).2.1

/-- State after the second `wrap`. -/
def cexSt3 : CacheState := (implWrap "d/" cexSt2 exCtx).1

/-- State after the second context produced its mesh. -/
def cexSt4 : CacheState := (cexCtx2.meshCallback ⟨[(5 : Byte)]⟩ cexSt3).1

/-- State after the second context produced its element `(42, [])`. -/
def cexSt5 : CacheState := (cexCtx2.elementCallback ⟨42, []⟩ cexSt4).1

/-- State after a clean (non-cancelled) finalize. -/
def cexSt6 : CacheState := (implUnwrap "d/" cexSt5 exCtx tokNone).1

/-- The attach / produce two records / clean finalize / try-load pipeline on
one context; the round-trip property is about its fetch result and events. -/
def roundTripChain (d : String) (q : QuadKey) (tag : String) (st0 : CacheState)
    (m : Mesh) (pl : List Byte) : FetchResult × CacheState × List Event :=
  let ctx := mkContext q tag
  let w := implWrap d st0 ctx
  let a := w.2.1.meshCallback m w.1
  let b := w.2.1.elementCallback ⟨42, pl⟩ a.1
  let u := implUnwrap d b.1 ctx tokNone
  implFetch d u.1 ctx tokNone

theorem le64_length (n : Nat) : (le64 n).length = 8 := rfl

theorem unle64_le64 (n : Nat) (h : n < 2 ^ 64) : unle64 (le64 n) = n := by
  have h64 : n < 18446744073709551616 := by
    have : (2 : Nat) ^ 64 = 18446744073709551616 := by norm_num
    omega
  simp only [le64, unle64, byteOf, List.foldr]
  omega

theorem meshWrite_length (m : Mesh) : (meshWrite m).length = 8 + m.payload.length := by
  simp [meshWrite, le64_length]

theorem elementWrite_length (e : Element) : (elementWrite e).length = 8 + e.payload.length := by
  simp [elementWrite, le64_length]

theorem meshRead_meshWrite (m : Mesh) (tl : List Byte) (h : m.payload.length < 2 ^ 64) :
    meshRead (meshWrite m ++ tl) = some (m, tl) := by
  have hlen : (le64 m.payload.length).length = 8 := le64_length _
  have htake : ((meshWrite m ++ tl)).take 8 = le64 m.payload.length := by
    simp only [meshWrite, List.append_assoc]
    rw [← hlen, List.take_left]
  have hdrop : ((meshWrite m ++ tl)).drop 8 = m.payload ++ tl := by
    simp only [meshWrite, List.append_assoc]
    rw [← hlen, List.drop_left]
  have hwl := meshWrite_length m
  have hcond : 8 ≤ (meshWrite m ++ tl).length ∧
      unle64 ((meshWrite m ++ tl).take 8) ≤ ((meshWrite m ++ tl).drop 8).length := by
    rw [htake, hdrop, unle64_le64 _ h]
    constructor
    · simp only [List.length_append]; omega
    · simp only [List.length_append]; omega
  rw [meshRead, if_pos hcond, htake, hdrop, unle64_le64 _ h, List.take_left, List.drop_left]

theorem elementRead_elementWrite (e : Element) (id : Nat) (tl : List Byte)
    (h : e.payload.length < 2 ^ 64) :
    elementRead (elementWrite e ++ tl) id = some (⟨id, e.payload⟩, tl) := by
  have hlen : (le64 e.payload.length).length = 8 := le64_length _
  have htake : ((elementWrite e ++ tl)).take 8 = le64 e.payload.length := by
    simp only [elementWrite, List.append_assoc]
    rw [← hlen, List.take_left]
  have hdrop : ((elementWrite e ++ tl)).drop 8 = e.payload ++ tl := by
    simp only [elementWrite, List.append_assoc]
    rw [← hlen, List.drop_left]
  have hwl := elementWrite_length e
  have hcond : 8 ≤ (elementWrite e ++ tl).length ∧
      unle64 ((elementWrite e ++ tl).take 8) ≤ ((elementWrite e ++ tl).drop 8).length := by
    rw [htake, hdrop, unle64_le64 _ h]
    constructor
    · simp only [List.length_append]; omega
    · simp only [List.length_append]; omega
  rw [elementRead, if_pos hcond, htake, hdrop, unle64_le64 _ h, List.take_left, List.drop_left]

theorem alookup_aupdate_self {α β : Type} [DecidableEq α] (l : List (α × β)) (a : α) (b : β) :
    alookup (aupdate l a b) a = some b := by
  induction l with
  | nil => simp [alookup, aupdate]
  | cons kv rest ih =>
    by_cases h : kv.1 = a
    · simp [alookup, aupdate, h]
    · simp [alookup, aupdate, h, ih]

theorem alookup_aerase_self {α β : Type} [DecidableEq α] (l : List (α × β)) (a : α) :
    alookup (aerase l a) a = none := by
  induction l with
  | nil => simp [alookup, aerase]
  | cons kv rest ih =>
    by_cases h : kv.1 = a
    · simp [aerase, h, ih]
    · simp [alookup, aerase, h, ih]

theorem aerase_eq_of_alookup_none {α β : Type} [DecidableEq α] (l : List (α × β)) (a : α)
    (h : alookup l a = none) : aerase l a = l := by
  induction l with
  | nil => simp [aerase]
  | cons kv rest ih =>
    by_cases hk : kv.1 = a
    · simp [alookup, hk] at h
    · simp only [alookup, hk, if_neg, if_false] at h
      simp [aerase, hk, ih h]

theorem alookup_none_not_mem {α β : Type} [DecidableEq α] (l : List (α × β)) (a : α)
    (h : alookup l a = none) : a ∉ l.map Prod.fst := by
  induction l with
  | nil => simp
  | cons kv rest ih =>
    by_cases hk : kv.1 = a
    · simp [alookup, hk] at h
    · simp only [alookup, hk, if_neg, if_false] at h
      simp only [List.map_cons, List.mem_cons]
      push_neg
      exact ⟨fun h' => hk h'.symm, ih h⟩

theorem aerase_map_fst_sublist {α β : Type} [DecidableEq α] (l : List (α × β)) (a : α) :
    ((aerase l a).map Prod.fst).Sublist (l.map Prod.fst) := by
  induction l with
  | nil => simp [aerase]
  | cons kv rest ih =>
    by_cases hk : kv.1 = a
    · simp only [aerase, hk, if_pos, List.map_cons]
      exact ih.trans (List.sublist_cons_self _ _)
    · simp only [aerase, hk, if_neg, if_false, List.map_cons]
      exact ih.cons₂ _

theorem fileContent_fileWriteBytes_self (st : CacheState) (p : String) (bs : List Byte) :
    fileContent (fileWriteBytes st p bs) p = fileContent st p ++ bs := by
  simp [fileContent, fileWriteBytes, alookup_aupdate_self]

theorem fileWriteBytes_sessions (st : CacheState) (p : String) (bs : List Byte) :
    (fileWriteBytes st p bs).sessions = st.sessions := rfl

theorem fileOpenAppend_sessions (st : CacheState) (p : String) :
    (fileOpenAppend st p).sessions = st.sessions := by
  by_cases h : fileExists st p <;> simp [fileOpenAppend, h]

theorem fileExists_fileRemove_self (st : CacheState) (p : String) :
    fileExists (fileRemove st p) p = false := by
  simp [fileExists, fileRemove, alookup_aerase_self]

theorem skipWs_cons_of_ws (b : Byte) (bs : List Byte) (h : isWhitespaceByte b = true) :
    skipWs (b :: bs) = skipWs bs := by
  simp [skipWs, h]

theorem skipWs_cons_of_not_ws (b : Byte) (bs : List Byte) (h : isWhitespaceByte b = false) :
    skipWs (b :: bs) = b :: bs := by
  simp [skipWs, h]

theorem readTag_cons_of_ws (b : Byte) (bs : List Byte) (h : isWhitespaceByte b = true) :
    readTag (b :: bs) = readTag bs := by
  simp [readTag, skipWs_cons_of_ws b bs h]

theorem readTag_cons_of_not_ws (b : Byte) (bs : List Byte) (h : isWhitespaceByte b = false) :
    readTag (b :: bs) = some (b, bs) := by
  simp [readTag, skipWs_cons_of_not_ws b bs h]

theorem readLoop_cancelled (ctx : BuilderContext) (tok : CancellationToken) (fuel n : Nat)
    (bs : List Byte) (st : CacheState) (h : tok.isCancelledAt n = true) :
    readLoop ctx tok (fuel + 1) n bs st = (st, [], ReadOutcome.ok) := by
  simp [readLoop, h]

theorem readLoop_eos (ctx : BuilderContext) (tok : CancellationToken) (fuel n : Nat)
    (bs : List Byte) (st : CacheState) (h : readTag bs = none) :
    readLoop ctx tok (fuel + 1) n bs st = (st, [], ReadOutcome.ok) := by
  by_cases hc : tok.isCancelledAt n <;> simp [readLoop, hc, h]

theorem readLoop_ws_skip (ctx : BuilderContext) (tok : CancellationToken) (fuel n : Nat)
    (b : Byte) (bs : List Byte) (st : CacheState) (h : isWhitespaceByte b = true) :
    readLoop ctx tok fuel n (b :: bs) st = readLoop ctx tok fuel n bs st := by
  cases fuel with
  | zero => rfl
  | succ f => simp [readLoop, readTag_cons_of_ws b bs h]

theorem readLoop_format_error (ctx : BuilderContext) (tok : CancellationToken) (fuel n : Nat)
    (bs rest : List Byte) (t : Byte) (st : CacheState) (hc : tok.isCancelledAt n = false)
    (ht : readTag bs = some (t, rest)) (h1 : t.val ≠ 1) (h0 : t.val ≠ 0) :
    readLoop ctx tok (fuel + 1) n bs st = (st, [], ReadOutcome.formatError) := by
  simp [readLoop, hc, ht, h1, h0]

theorem readLoop_mesh_step (ctx : BuilderContext) (tok : CancellationToken) (fuel n : Nat)
    (m : Mesh) (rest : List Byte) (st : CacheState) (hc : tok.isCancelledAt n = false)
    (hm : m.payload.length < 2 ^ 64) :
    readLoop ctx tok (fuel + 1) n ((1 : Byte) :: (meshWrite m ++ rest)) st =
      ((readLoop ctx tok fuel (n + 1) rest (ctx.meshCallback m st).1).1,
       (ctx.meshCallback m st).2 ++
         (readLoop ctx tok fuel (n + 1) rest (ctx.meshCallback m st).1).2.1,
       (readLoop ctx tok fuel (n + 1) rest (ctx.meshCallback m st).1).2.2) := by
  have hw : isWhitespaceByte (1 : Byte) = false := rfl
  have hv : ((1 : Byte)).val = 1 := rfl
  simp [readLoop, hc, readTag_cons_of_not_ws _ _ hw, hv, meshRead_meshWrite m rest hm]

theorem readLoop_elem_step (ctx : BuilderContext) (tok : CancellationToken) (fuel n : Nat)
    (e : Element) (rest : List Byte) (st : CacheState) (hc : tok.isCancelledAt n = false)
    (hp : e.payload.length < 2 ^ 64) (hid : e.id < 2 ^ 64) :
    readLoop ctx tok (fuel + 1) n ((0 : Byte) :: (le64 e.id ++ (elementWrite e ++ rest))) st =
      ((readLoop ctx tok fuel (n + 1) rest (ctx.elementCallback e st).1).1,
       (ctx.elementCallback e st).2 ++
         (readLoop ctx tok fuel (n + 1) rest (ctx.elementCallback e st).1).2.1,
       (readLoop ctx tok fuel (n + 1) rest (ctx.elementCallback e st).1).2.2) := by
  have hw : isWhitespaceByte (0 : Byte) = false := rfl
  have hv : ((0 : Byte)).val = 0 := rfl
  have hlen8 : (le64 e.id).length = 8 := le64_length _
  have hnl : ¬ (le64 e.id ++ (elementWrite e ++ rest)).length < 8 := by
    simp only [List.length_append, hlen8]
    omega
  have htake : (le64 e.id ++ (elementWrite e ++ rest)).take 8 = le64 e.id := by
    rw [← hlen8, List.take_left]
  have hdrop : (le64 e.id ++ (elementWrite e ++ rest)).drop 8 = elementWrite e ++ rest := by
    rw [← hlen8, List.drop_left]
  have hread : elementRead ((le64 e.id ++ (elementWrite e ++ rest)).drop 8)
      (unle64 ((le64 e.id ++ (elementWrite e ++ rest)).take 8)) = some (e, rest) := by
    rw [htake, hdrop, unle64_le64 _ hid, elementRead_elementWrite e e.id rest hp]
  simp [readLoop, hc, readTag_cons_of_not_ws _ _ hw, hv, hnl, hread]
  intro hlt
  rw [hlen8] at hlt
  omega

theorem skipWs_length_le (bs : List Byte) : (skipWs bs).length ≤ bs.length := by
  induction bs with
  | nil => simp [skipWs]
  | cons b rest ih =>
    by_cases h : isWhitespaceByte b
    · simp only [skipWs, h, if_pos, List.length_cons]
      omega
    · simp [skipWs, h]

theorem readTag_some_length (bs rest : List Byte) (t : Byte)
    (h : readTag bs = some (t, rest)) : rest.length < bs.length := by
  have hle := skipWs_length_le bs
  unfold readTag at h
  cases hs : skipWs bs with
  | nil => rw [hs] at h; simp at h
  | cons b bs1 =>
    rw [hs] at h
    simp only [Option.some.injEq, Prod.mk.injEq] at h
    obtain ⟨-, rfl⟩ := h
    rw [hs] at hle
    simp only [List.length_cons] at hle
    omega

theorem meshRead_length_le (bs rest : List Byte) (m : Mesh)
    (h : meshRead bs = some (m, rest)) : rest.length ≤ bs.length := by
  unfold meshRead at h
  by_cases hc : 8 ≤ bs.length ∧ unle64 (bs.take 8) ≤ (bs.drop 8).length
  · rw [if_pos hc] at h
    simp only [Option.some.injEq, Prod.mk.injEq] at h
    obtain ⟨-, rfl⟩ := h
    simp only [List.length_drop]
    omega
  · rw [if_neg hc] at h; simp at h

theorem elementRead_length_le (bs rest : List Byte) (id : Nat) (e : Element)
    (h : elementRead bs id = some (e, rest)) : rest.length ≤ bs.length := by
  unfold elementRead at h
  by_cases hc : 8 ≤ bs.length ∧ unle64 (bs.take 8) ≤ (bs.drop 8).length
  · rw [if_pos hc] at h
    simp only [Option.some.injEq, Prod.mk.injEq] at h
    obtain ⟨-, rfl⟩ := h
    simp only [List.length_drop]
    omega
  · rw [if_neg hc] at h; simp at h

theorem readLoop_no_fuelOut (ctx : BuilderContext) (tok : CancellationToken) :
    ∀ fuel n bs st, bs.length < fuel →
      (readLoop ctx tok fuel n bs st).2.2 ≠ ReadOutcome.fuelOut := by
  intro fuel
  induction fuel with
  | zero => intro n bs st h; omega
  | succ f ih =>
    intro n bs st h
    rw [readLoop]
    by_cases hc : tok.isCancelledAt n
    · simp [hc]
    · simp only [hc, Bool.false_eq_true, if_false]
      cases ht : readTag bs with
      | none => simp
      | some pr =>
        obtain ⟨t, rest⟩ := pr
        have hrest : rest.length < bs.length := readTag_some_length bs rest t ht
        by_cases h1 : t.val = 1
        · simp only [h1, if_pos]
          cases hm : meshRead rest with
          | none => simp
          | some pr2 =>
            obtain ⟨m, rest1⟩ := pr2
            have hr1 : rest1.length ≤ rest.length := meshRead_length_le rest rest1 m hm
            simpa using ih (n + 1) rest1 (ctx.meshCallback m st).1 (by omega)
        · by_cases h0 : t.val = 0
          · simp only [h1, h0, if_neg, if_false, if_pos]
            by_cases hlen : rest.length < 8
            · simp [hlen]
            · simp only [hlen, if_neg, if_false]
              cases he : elementRead (rest.drop 8) (unle64 (rest.take 8)) with
              | none => simp
              | some pr2 =>
                obtain ⟨e, rest1⟩ := pr2
                have hr1 : rest1.length ≤ (rest.drop 8).length :=
                  elementRead_length_le (rest.drop 8) rest1 (unle64 (rest.take 8)) e he
                have hr2 : (rest.drop 8).length ≤ rest.length := by simp [List.length_drop]
                simpa using ih (n + 1) rest1 (ctx.elementCallback e st).1 (by omega)
          · simp [h1, h0]

/-- C3: `isCacheHit(quadkey, path)` returns true exactly when the quadkey has
no open session in the registry and a readable file exists at the path; in
particular, while a session for the quadkey is open, `isCacheHit` is false
even if a complete, valid file exists at the path. -/
theorem C3_isCacheHit_characterization (st : CacheState) (q : QuadKey) (p : String) :
    (isCacheHit st q p = true ↔ (alookup st.sessions q = none ∧ fileExists st p = true))
    ∧ (∀ s, alookup st.sessions q = some s → isCacheHit st q p = false) := by
  constructor
  · simp [isCacheHit, Option.isNone_iff_eq_none, Bool.and_eq_true]
  · intro s hs
    simp [isCacheHit, hs]

/-- C3 witness: in a state with an open session for the quadkey and a valid
file at the path, `isCacheHit` reports a miss. -/
theorem C3_isCacheHit_characterization_witness :
    isCacheHit ⟨[("x", [(1 : Byte)])], [(⟨1, 0, 0⟩, "x")]⟩ ⟨1, 0, 0⟩ "x" = false
    ∧ fileExists ⟨[("x", [(1 : Byte)])], [(⟨1, 0, 0⟩, "x")]⟩ "x" = true :=
  ⟨(C3_isCacheHit_characterization ⟨[("x", [(1 : Byte)])], [(⟨1, 0, 0⟩, "x")]⟩
      ⟨1, 0, 0⟩ "x").2 "x" (by decide), by decide⟩

/-- C8: finalize for a quadkey with no registry entry is a no-op: the state
(filesystem and registry) is returned unchanged — no file is deleted even
when the cancellation token is set — and the only event is the registry
lookup. -/
theorem C8_unwrap_no_session (d : String) (st : CacheState) (ctx : BuilderContext)
    (tok : CancellationToken) (h : alookup st.sessions ctx.quadKey = none) :
    implUnwrap d st ctx tok = (st, [Event.regFind ctx.quadKey]) := by
  simp [implUnwrap, h]

/-- C8 witness: finalize with a cancelled token on a quadkey that was never
attached leaves a state holding an existing cache file untouched. -/
theorem C8_unwrap_no_session_witness :
    implUnwrap "d/" ⟨[("f", [(1 : Byte)])], []⟩ (mkContext ⟨2, 0, 0⟩ "w") tokAll
      = (⟨[("f", [(1 : Byte)])], []⟩, [Event.regFind ⟨2, 0, 0⟩]) :=
  C8_unwrap_no_session "d/" ⟨[("f", [(1 : Byte)])], []⟩ (mkContext ⟨2, 0, 0⟩ "w") tokAll rfl

/-- C2 counterexample: with the enable flag false, `fetch` still performs
file and registry I/O (a registry lookup, a file probe and a file open) and
even replays a hit — the flag gates only `wrap`, contradicting the claim
that every coordinator operation is gated and that no I/O happens. -/
theorem C2_counterexample :
    (MeshCache.mk "d/" false).isEnabled = false
    ∧ MeshCache.fetch (MeshCache.mk "d/" false)
        ⟨[(getFilePath "d/" exCtx, [])], []⟩ exCtx tokNone
        = (FetchResult.hit ReadOutcome.ok,
           ⟨[(getFilePath "d/" exCtx, [])], []⟩,
           [Event.regFind ⟨1, 0, 0⟩,
            Event.fileProbe (getFilePath "d/" exCtx),
            Event.fileOpenRead (getFilePath "d/" exCtx)])
    ∧ ([Event.regFind (⟨1, 0, 0⟩ : QuadKey),
        Event.fileProbe (getFilePath "d/" exCtx),
        Event.fileOpenRead (getFilePath "d/" exCtx)] : List Event) ≠ [] := by
  refine ⟨rfl, by decide, by decide⟩

/-- C2 (amended): the enable flag gates only `wrap`, which returns its input
context unchanged and performs no I/O when the flag is false; `fetch` and
`unwrap` do not consult the flag and behave exactly as they do on an enabled
coordinator. -/
theorem C2_enable_flag_gates_attach_only (c : MeshCache) (st : CacheState)
    (ctx : BuilderContext) (tok : CancellationToken) (h : c.isEnabled = false) :
    MeshCache.wrap c st ctx = (st, ctx, [])
    ∧ MeshCache.fetch c st ctx tok = MeshCache.fetch (MeshCache.mk c.dataPath true) st ctx tok
    ∧ MeshCache.unwrap c st ctx tok = MeshCache.unwrap (MeshCache.mk c.dataPath true) st ctx tok :=
  ⟨by simp [MeshCache.wrap, h], rfl, rfl⟩

/-- C2 witness: a disabled facade returns the input context unchanged from
`wrap` while `fetch` and `unwrap` coincide with the enabled behaviour. -/
theorem C2_enable_flag_gates_attach_only_witness :
    MeshCache.wrap (MeshCache.mk "w/" false) ⟨[], []⟩ (mkContext ⟨3, 0, 0⟩ "s")
      = (⟨[], []⟩, mkContext ⟨3, 0, 0⟩ "s", [])
    ∧ MeshCache.fetch (MeshCache.mk "w/" false) ⟨[], []⟩ (mkContext ⟨3, 0, 0⟩ "s") tokNone
      = MeshCache.fetch (MeshCache.mk "w/" true) ⟨[], []⟩ (mkContext ⟨3, 0, 0⟩ "s") tokNone
    ∧ MeshCache.unwrap (MeshCache.mk "w/" false) ⟨[], []⟩ (mkContext ⟨3, 0, 0⟩ "s") tokNone
      = MeshCache.unwrap (MeshCache.mk "w/" true) ⟨[], []⟩ (mkContext ⟨3, 0, 0⟩ "s") tokNone :=
  C2_enable_flag_gates_attach_only (MeshCache.mk "w/" false) ⟨[], []⟩
    (mkContext ⟨3, 0, 0⟩ "s") tokNone rfl

/-- C5 counterexample: a cache file whose single record tag byte is `0x20`
(neither `0x00` nor `0x01`) does NOT abort with a data-format error: the
formatted extraction `file >> type` skips it as whitespace, hits end of
stream, and the replay ends as a silent empty run with outcome `ok`. -/
theorem C5_counterexample :
    fileContent ⟨[("f", [(32 : Byte)])], []⟩ "f" = [(32 : Byte)]
    ∧ (32 : Byte).val ≠ 0 ∧ (32 : Byte).val ≠ 1
    ∧ readCache "f" (mkContext ⟨1, 0, 0⟩ "t") tokNone ⟨[("f", [(32 : Byte)])], []⟩
        = (⟨[("f", [(32 : Byte)])], []⟩, [Event.fileOpenRead "f"], ReadOutcome.ok)
    ∧ ReadOutcome.ok ≠ ReadOutcome.formatError := by
  refine ⟨by decide, by decide, by decide, by decide, by decide⟩

/-- C5 (amended): the replay loop stops normally at end of stream; the token
is consulted before each record and a set token stops the replay early
without error; a tag byte that is C-locale whitespace is consumed and
skipped by the formatted read rather than treated as a record tag; any
extracted tag byte other than `0x00` and `0x01` aborts immediately with the
data-format error. -/
theorem C5_replay_tag_discipline (ctx : BuilderContext) (tok : CancellationToken)
    (fuel n : Nat) (bs rest : List Byte) (t b : Byte) (st : CacheState) :
    (readTag bs = none → readLoop ctx tok (fuel + 1) n bs st = (st, [], ReadOutcome.ok))
    ∧ (tok.isCancelledAt n = true →
        readLoop ctx tok (fuel + 1) n bs st = (st, [], ReadOutcome.ok))
    ∧ (isWhitespaceByte b = true →
        readLoop ctx tok (fuel + 1) n (b :: bs) st = readLoop ctx tok (fuel + 1) n bs st)
    ∧ (tok.isCancelledAt n = false → readTag bs = some (t, rest) → t.val ≠ 0 → t.val ≠ 1 →
        readLoop ctx tok (fuel + 1) n bs st = (st, [], ReadOutcome.formatError)) :=
  ⟨fun h => readLoop_eos ctx tok fuel n bs st h,
   fun h => readLoop_cancelled ctx tok fuel n bs st h,
   fun h => readLoop_ws_skip ctx tok (fuel + 1) n b bs st h,
   fun hc ht h0 h1 => readLoop_format_error ctx tok fuel n bs rest t st hc ht h1 h0⟩

/-- C5 witness: a non-whitespace tag byte `0x02` aborts the replay with the
data-format error. -/
theorem C5_replay_tag_discipline_witness :
    readLoop (mkContext ⟨1, 0, 0⟩ "t") tokNone 1 0 [(2 : Byte)] ⟨[], []⟩
      = (⟨[], []⟩, [], ReadOutcome.formatError) :=
  (C5_replay_tag_discipline (mkContext ⟨1, 0, 0⟩ "t") tokNone 0 0 [(2 : Byte)] [] 2 32
    ⟨[], []⟩).2.2.2 rfl (by decide) (by decide) (by decide)

/-- C10: when the hit check succeeds, `fetch` returns true even if the
cancellation token is already set at entry: the replay loop exits before its
first record, no downstream callback runs, the state is unchanged, and the
true result only certifies that a complete cache file was found. -/
theorem C10_fetch_hit_cancelled (d : String) (st : CacheState) (ctx : BuilderContext)
    (tok : CancellationToken)
    (hhit : isCacheHit st ctx.quadKey (getFilePath d ctx) = true)
    (hcan : tok.isCancelledAt 0 = true) :
    implFetch d st ctx tok =
      (FetchResult.hit ReadOutcome.ok, st,
       isCacheHitEvents st ctx.quadKey (getFilePath d ctx)
         ++ [Event.fileOpenRead (getFilePath d ctx)])
    ∧ callbackEvents (implFetch d st ctx tok).2.2 = [] := by
  have h1 : readCache (getFilePath d ctx) ctx tok st
      = (st, [Event.fileOpenRead (getFilePath d ctx)], ReadOutcome.ok) := by
    have hr : readLoop ctx tok ((fileContent st (getFilePath d ctx)).length + 1) 0
        (fileContent st (getFilePath d ctx)) st = (st, [], ReadOutcome.ok) :=
      readLoop_cancelled ctx tok _ 0 _ st hcan
    unfold readCache
    simp only [hr]
  have h2 : implFetch d st ctx tok =
      (FetchResult.hit ReadOutcome.ok, st,
       isCacheHitEvents st ctx.quadKey (getFilePath d ctx)
         ++ [Event.fileOpenRead (getFilePath d ctx)]) := by
    simp [implFetch, hhit, h1]
  refine ⟨h2, ?_⟩
  rw [h2]
  by_cases hn : (alookup st.sessions ctx.quadKey).isNone <;>
    simp [callbackEvents, isCacheHitEvents, hn]

/-- C10 witness: on a state holding a complete two-record cache file, `fetch`
with an already-set token returns the hit result, replays nothing, and
invokes no callback. -/
theorem C10_fetch_hit_cancelled_witness :
    implFetch "d/" ⟨[(getFilePath "d/" (mkContext ⟨4, 0, 0⟩ "s"), [(1 : Byte), 0, 0, 0, 0, 0, 0, 0, 0])], []⟩
        (mkContext ⟨4, 0, 0⟩ "s") tokAll =
      (FetchResult.hit ReadOutcome.ok,
       ⟨[(getFilePath "d/" (mkContext ⟨4, 0, 0⟩ "s"), [(1 : Byte), 0, 0, 0, 0, 0, 0, 0, 0])], []⟩,
       isCacheHitEvents ⟨[(getFilePath "d/" (mkContext ⟨4, 0, 0⟩ "s"), [(1 : Byte), 0, 0, 0, 0, 0, 0, 0, 0])], []⟩
           ⟨4, 0, 0⟩ (getFilePath "d/" (mkContext ⟨4, 0, 0⟩ "s"))
         ++ [Event.fileOpenRead (getFilePath "d/" (mkContext ⟨4, 0, 0⟩ "s"))])
    ∧ callbackEvents (implFetch "d/"
        ⟨[(getFilePath "d/" (mkContext ⟨4, 0, 0⟩ "s"), [(1 : Byte), 0, 0, 0, 0, 0, 0, 0, 0])], []⟩
        (mkContext ⟨4, 0, 0⟩ "s") tokAll).2.2 = [] :=
  C10_fetch_hit_cancelled "d/"
    ⟨[(getFilePath "d/" (mkContext ⟨4, 0, 0⟩ "s"), [(1 : Byte), 0, 0, 0, 0, 0, 0, 0, 0])], []⟩
    (mkContext ⟨4, 0, 0⟩ "s") tokAll (by decide) rfl

/-- C6: the write interceptor persists the tagged on-disk record through the
session stream and only then forwards the unmodified value to the original
downstream callback; writing mesh `m1` and then element `(7, xpl)` appends
exactly `01 <m1-bytes> 00 07 00 00 00 00 00 00 00 <payload-bytes>` to the
file, with the identifier as 8 little-endian bytes. -/
theorem C6_interceptor_persist_then_forward (p : String) (q : QuadKey) (tag : String)
    (m1 : Mesh) (xpl : List Byte) (st : CacheState) :
    (∀ (cb : MeshCallback) (m : Mesh) (s : CacheState), wrapMeshCallback p cb m s
        = ((cb m (fileWriteBytes s p ((1 : Byte) :: meshWrite m))).1,
           Event.fileWrite p ((1 : Byte) :: meshWrite m)
             :: (cb m (fileWriteBytes s p ((1 : Byte) :: meshWrite m))).2))
    ∧ (∀ (cb : ElementCallback) (e : Element) (s : CacheState), wrapElementCallback p cb e s
        = ((cb e (fileWriteBytes s p ((0 : Byte) :: (le64 e.id ++ elementWrite e)))).1,
           Event.fileWrite p ((0 : Byte) :: (le64 e.id ++ elementWrite e))
             :: (cb e (fileWriteBytes s p ((0 : Byte) :: (le64 e.id ++ elementWrite e)))).2))
    ∧ (wrapMeshCallback p (mkContext q tag).meshCallback m1 st).2
        = [Event.fileWrite p ((1 : Byte) :: meshWrite m1), Event.meshCb m1]
    ∧ (wrapElementCallback p (mkContext q tag).elementCallback ⟨7, xpl⟩
         (wrapMeshCallback p (mkContext q tag).meshCallback m1 st).1).2
        = [Event.fileWrite p ((0 : Byte) :: (le64 7 ++ elementWrite ⟨7, xpl⟩)),
           Event.elemCb ⟨7, xpl⟩]
    ∧ le64 7 = [(7 : Byte), 0, 0, 0, 0, 0, 0, 0]
    ∧ fileContent (wrapElementCallback p (mkContext q tag).elementCallback ⟨7, xpl⟩
         (wrapMeshCallback p (mkContext q tag).meshCallback m1 st).1).1 p
        = fileContent st p ++ ((1 : Byte) :: meshWrite m1)
            ++ ((0 : Byte) :: ([(7 : Byte), 0, 0, 0, 0, 0, 0, 0] ++ elementWrite ⟨7, xpl⟩)) := by
  have h7 : le64 7 = [(7 : Byte), 0, 0, 0, 0, 0, 0, 0] := by decide
  refine ⟨fun cb m s => rfl, fun cb e s => rfl, rfl, rfl, h7, ?_⟩
  simp [wrapElementCallback, wrapMeshCallback, mkContext,
    fileContent_fileWriteBytes_self, h7, List.append_assoc]

/-- C7 helper view of `wrap` on the registry: either the registry is left
unchanged, or the quadkey had no entry and exactly one new session for it is
prepended. -/
theorem implWrap_sessions (d : String) (st : CacheState) (ctx : BuilderContext) :
    (implWrap d st ctx).1.sessions = st.sessions ∨
    ((implWrap d st ctx).1.sessions = (ctx.quadKey, getFilePath d ctx) :: st.sessions
      ∧ alookup st.sessions ctx.quadKey = none) := by
  unfold implWrap
  by_cases hh : isCacheHit st ctx.quadKey (getFilePath d ctx)
  · left; simp [hh]
  · simp only [hh, Bool.false_eq_true, if_false]
    unfold sessionInsert
    cases hx : alookup st.sessions ctx.quadKey with
    | some s =>
      left
      simp [fileOpenAppend_sessions, hx]
    | none =>
      right
      refine ⟨?_, rfl⟩
      simp [fileOpenAppend_sessions, hx]

/-- C7 helper view of `unwrap` on the registry: either unchanged or the
quadkey's entry erased. -/
theorem implUnwrap_sessions (d : String) (st : CacheState) (ctx : BuilderContext)
    (tok : CancellationToken) :
    (implUnwrap d st ctx tok).1.sessions = st.sessions ∨
    (implUnwrap d st ctx tok).1.sessions = aerase st.sessions ctx.quadKey := by
  unfold implUnwrap
  cases hx : alookup st.sessions ctx.quadKey with
  | none => left; rfl
  | some s =>
    right
    by_cases hc : tok.isCancelledAt 0 <;> simp [hc, sessionErase, fileRemove]

/-- C7: the registry is the enforcement point for at most one open session
per quadkey: both `wrap` and `unwrap` preserve the no-duplicate-key
invariant, and when an entry for the quadkey already exists, the miss branch
of `wrap` leaves the registry unchanged — the existing session remains
authoritative and is never overwritten. -/
theorem C7_registry_single_session (d : String) (st : CacheState) (ctx : BuilderContext) :
    (atMostOneSession st → atMostOneSession (implWrap d st ctx).1)
    ∧ (∀ s, alookup st.sessions ctx.quadKey = some s →
        (implWrap d st ctx).1.sessions = st.sessions)
    ∧ (∀ tok, atMostOneSession st → atMostOneSession (implUnwrap d st ctx tok).1) := by
  refine ⟨?_, ?_, ?_⟩
  · intro hinv
    rcases implWrap_sessions d st ctx with h | ⟨h, hn⟩
    · unfold atMostOneSession
      rw [h]
      exact hinv
    · unfold atMostOneSession
      rw [h]
      simp only [List.map_cons, List.nodup_cons]
      exact ⟨alookup_none_not_mem st.sessions ctx.quadKey hn, hinv⟩
  · intro s hs
    rcases implWrap_sessions d st ctx with h | ⟨h, hn⟩
    · exact h
    · rw [hs] at hn
      exact absurd hn (by simp)
  · intro tok hinv
    rcases implUnwrap_sessions d st ctx tok with h | h
    · unfold atMostOneSession
      rw [h]
      exact hinv
    · unfold atMostOneSession
      rw [h]
      exact hinv.sublist (aerase_map_fst_sublist st.sessions ctx.quadKey)

/-- C7 witness: a second `wrap` for a quadkey whose session is open keeps the
registry unchanged and the invariant holds throughout. -/
theorem C7_registry_single_session_witness :
    (implWrap "d/" ⟨[("f", [])], [(⟨1, 0, 0⟩, "f")]⟩ exCtx).1.sessions
      = [((⟨1, 0, 0⟩ : QuadKey), "f")]
    ∧ atMostOneSession (implWrap "d/" ⟨[("f", [])], [(⟨1, 0, 0⟩, "f")]⟩ exCtx).1 :=
  ⟨(C7_registry_single_session "d/" ⟨[("f", [])], [(⟨1, 0, 0⟩, "f")]⟩ exCtx).2.1 "f" (by decide),
   (C7_registry_single_session "d/" ⟨[("f", [])], [(⟨1, 0, 0⟩, "f")]⟩ exCtx).1
     (by unfold atMostOneSession; decide)⟩

/-- C4: finalize with a cancelled token on an open session deletes the cache
file before erasing the registry entry (visible in the event order), and
afterwards `isCacheHit` and `fetch` report a miss for that quadkey and the
cache file no longer exists. -/
theorem C4_unwrap_cancelled_discards (d : String) (st : CacheState) (ctx : BuilderContext)
    (tok : CancellationToken) (s : String)
    (hs : alookup st.sessions ctx.quadKey = some s)
    (hc : tok.isCancelledAt 0 = true) :
    (implUnwrap d st ctx tok).2
        = [Event.regFind ctx.quadKey, Event.fileDelete (getFilePath d ctx),
           Event.regErase ctx.quadKey]
    ∧ fileExists (implUnwrap d st ctx tok).1 (getFilePath d ctx) = false
    ∧ isCacheHit (implUnwrap d st ctx tok).1 ctx.quadKey (getFilePath d ctx) = false
    ∧ (∀ tok2, (implFetch d (implUnwrap d st ctx tok).1 ctx tok2).1 = FetchResult.miss) := by
  have hu : implUnwrap d st ctx tok
      = (sessionErase (fileRemove st (getFilePath d ctx)) ctx.quadKey,
         [Event.regFind ctx.quadKey, Event.fileDelete (getFilePath d ctx),
          Event.regErase ctx.quadKey]) := by
    simp [implUnwrap, hs, hc]
  have hfe : fileExists (implUnwrap d st ctx tok).1 (getFilePath d ctx) = false := by
    rw [hu]
    show fileExists (fileRemove st (getFilePath d ctx)) (getFilePath d ctx) = false
    exact fileExists_fileRemove_self st (getFilePath d ctx)
  have hih : isCacheHit (implUnwrap d st ctx tok).1 ctx.quadKey (getFilePath d ctx) = false := by
    simp [isCacheHit, hfe]
  refine ⟨by rw [hu], hfe, hih, ?_⟩
  intro tok2
  simp [implFetch, hih]

/-- C4 witness: cancelling the open session for quadkey `(1,0,0)` removes its
file and makes every later lookup a miss. -/
theorem C4_unwrap_cancelled_discards_witness :
    (implUnwrap "d/" ⟨[(getFilePath "d/" exCtx, [(1 : Byte)])], [(⟨1, 0, 0⟩, getFilePath "d/" exCtx)]⟩
        exCtx tokAll).2
        = [Event.regFind ⟨1, 0, 0⟩, Event.fileDelete (getFilePath "d/" exCtx),
           Event.regErase ⟨1, 0, 0⟩]
    ∧ fileExists (implUnwrap "d/"
        ⟨[(getFilePath "d/" exCtx, [(1 : Byte)])], [(⟨1, 0, 0⟩, getFilePath "d/" exCtx)]⟩
        exCtx tokAll).1 (getFilePath "d/" exCtx) = false
    ∧ isCacheHit (implUnwrap "d/"
        ⟨[(getFilePath "d/" exCtx, [(1 : Byte)])], [(⟨1, 0, 0⟩, getFilePath "d/" exCtx)]⟩
        exCtx tokAll).1 ⟨1, 0, 0⟩ (getFilePath "d/" exCtx) = false
    ∧ (∀ tok2, (implFetch "d/" (implUnwrap "d/"
        ⟨[(getFilePath "d/" exCtx, [(1 : Byte)])], [(⟨1, 0, 0⟩, getFilePath "d/" exCtx)]⟩
        exCtx tokAll).1 exCtx tok2).1 = FetchResult.miss) :=
  C4_unwrap_cancelled_discards "d/"
    ⟨[(getFilePath "d/" exCtx, [(1 : Byte)])], [(⟨1, 0, 0⟩, getFilePath "d/" exCtx)]⟩
    exCtx tokAll (getFilePath "d/" exCtx) (by decide) rfl

/-- C1 counterexample: a context CAN be built on a cache miss (the second
`wrap` misses because a session is open for the quadkey) such that producing
exactly one mesh and one element `(42, [])` through its callbacks and then
finalizing cleanly makes the next `fetch` return true but replay THREE
values — the stale record written by the first session is replayed first —
so the replay is not exactly `[m, (42, p)]`. -/
theorem C1_counterexample :
    isCacheHit cexSt2 exCtx.quadKey (getFilePath "d/" exCtx) = false
    ∧ (implFetch "d/" cexSt6 exCtx tokNone).1 = FetchResult.hit ReadOutcome.ok
    ∧ callbackEvents (implFetch "d/" cexSt6 exCtx tokNone).2.2
        = [Event.meshCb ⟨[]⟩, Event.meshCb ⟨[(5 : Byte)]⟩, Event.elemCb ⟨42, []⟩]
    ∧ callbackEvents (implFetch "d/" cexSt6 exCtx tokNone).2.2
        ≠ [Event.meshCb ⟨[(5 : Byte)]⟩, Event.elemCb ⟨42, []⟩] := by
  refine ⟨by decide, by decide, by decide, by decide⟩

/-- C1 (amended): for every context built on a CLEAN cache miss — no open
session for its quadkey and no file at the resolved path — attaching,
producing one mesh `m` and one element `(42, pl)` through the returned
context's callbacks, and finalizing with a non-cancelled token makes a
subsequent `fetch` on an equivalent context return true and replay exactly
`[m, (42, pl)]`, in order, through the original callbacks, each value equal
to the original under the codec's equality. -/
theorem C1_roundtrip_clean_miss (d : String) (q : QuadKey) (tag : String)
    (st0 : CacheState) (m : Mesh) (pl : List Byte)
    (hsess : alookup st0.sessions q = none)
    (hfile : fileExists st0 (getFilePath d (mkContext q tag)) = false)
    (hm : m.payload.length < 2 ^ 64) (hpl : pl.length < 2 ^ 64) :
    (roundTripChain d q tag st0 m pl).1 = FetchResult.hit ReadOutcome.ok
    ∧ callbackEvents (roundTripChain d q tag st0 m pl).2.2
        = [Event.meshCb m, Event.elemCb ⟨42, pl⟩] := by
  have hq : (mkContext q tag).quadKey = q := rfl
  set p := getFilePath d (mkContext q tag) with hpdef
  have hh : isCacheHit st0 q p = false := by
    simp [isCacheHit, hfile]
  have hw1 : (implWrap d st0 (mkContext q tag)).1
      = ⟨(p, []) :: st0.files, (q, p) :: st0.sessions⟩ := by
    simp [implWrap, hq, hh, fileOpenAppend, hfile, sessionInsert, hsess]
  have hwm : (implWrap d st0 (mkContext q tag)).2.1.meshCallback
      = wrapMeshCallback p (mkContext q tag).meshCallback := by
    simp [implWrap, hq, hh]
  have hwe : (implWrap d st0 (mkContext q tag)).2.1.elementCallback
      = wrapElementCallback p (mkContext q tag).elementCallback := by
    simp [implWrap, hq, hh]
  have ha : wrapMeshCallback p (mkContext q tag).meshCallback m
        ⟨(p, []) :: st0.files, (q, p) :: st0.sessions⟩
      = (⟨(p, (1 : Byte) :: meshWrite m) :: st0.files, (q, p) :: st0.sessions⟩,
         [Event.fileWrite p ((1 : Byte) :: meshWrite m), Event.meshCb m]) := by
    simp [wrapMeshCallback, mkContext, fileWriteBytes, fileContent, alookup, aupdate]
  have hb : wrapElementCallback p (mkContext q tag).elementCallback ⟨42, pl⟩
        ⟨(p, (1 : Byte) :: meshWrite m) :: st0.files, (q, p) :: st0.sessions⟩
      = (⟨(p, ((1 : Byte) :: meshWrite m)
              ++ ((0 : Byte) :: (le64 42 ++ elementWrite ⟨42, pl⟩))) :: st0.files,
          (q, p) :: st0.sessions⟩,
         [Event.fileWrite p ((0 : Byte) :: (le64 42 ++ elementWrite ⟨42, pl⟩)),
          Event.elemCb ⟨42, pl⟩]) := by
    simp [wrapElementCallback, mkContext, fileWriteBytes, fileContent, alookup, aupdate]
  have hu1 : (implUnwrap d
        ⟨(p, ((1 : Byte) :: meshWrite m)
            ++ ((0 : Byte) :: (le64 42 ++ elementWrite ⟨42, pl⟩))) :: st0.files,
         (q, p) :: st0.sessions⟩ (mkContext q tag) tokNone).1
      = ⟨(p, ((1 : Byte) :: meshWrite m)
            ++ ((0 : Byte) :: (le64 42 ++ elementWrite ⟨42, pl⟩))) :: st0.files,
         st0.sessions⟩ := by
    have hl : alookup ((q, p) :: st0.sessions) q = some p := by simp [alookup]
    have he : aerase ((q, p) :: st0.sessions) q = st0.sessions := by
      simp [aerase, aerase_eq_of_alookup_none st0.sessions q hsess]
    simp [implUnwrap, hq, hl, tokNone, sessionErase, he]
  set full : List Byte := ((1 : Byte) :: meshWrite m)
      ++ ((0 : Byte) :: (le64 42 ++ elementWrite ⟨42, pl⟩)) with hfulldef
  set stF : CacheState := ⟨(p, full) :: st0.files, st0.sessions⟩ with hstFdef
  have hh2 : isCacheHit stF q p = true := by
    simp [isCacheHit, hstFdef, hsess, fileExists, alookup]
  have hcont : fileContent stF p = full := by
    simp [fileContent, hstFdef, alookup]
  have hlen : full.length = 26 + m.payload.length + pl.length := by
    simp only [hfulldef, List.length_append, List.length_cons, meshWrite_length,
      elementWrite_length, le64_length]
    omega
  obtain ⟨k, hk⟩ : ∃ k, full.length + 1 = k + 1 + 1 + 1 := ⟨full.length - 2, by omega⟩
  have hcbm : (mkContext q tag).meshCallback m stF = (stF, [Event.meshCb m]) := rfl
  have hcbe : (mkContext q tag).elementCallback ⟨42, pl⟩ stF
      = (stF, [Event.elemCb ⟨42, pl⟩]) := rfl
  have hfull2 : full = (1 : Byte)
      :: (meshWrite m ++ ((0 : Byte) :: (le64 (42 : Nat) ++ (elementWrite ⟨42, pl⟩ ++ [])))) := by
    simp [hfulldef]
  have hread : readLoop (mkContext q tag) tokNone (full.length + 1) 0 full stF
      = (stF, [Event.meshCb m, Event.elemCb ⟨42, pl⟩], ReadOutcome.ok) := by
    rw [hk, hfull2]
    rw [readLoop_mesh_step (mkContext q tag) tokNone (k + 1 + 1) 0 m _ stF rfl hm]
    rw [hcbm]
    rw [show ((0 : Byte) :: (le64 (42 : Nat) ++ (elementWrite ⟨42, pl⟩ ++ [])))
        = (0 : Byte) :: (le64 ((⟨42, pl⟩ : Element)).id ++ (elementWrite ⟨42, pl⟩ ++ [])) from rfl]
    rw [readLoop_elem_step (mkContext q tag) tokNone (k + 1) 1 ⟨42, pl⟩ [] stF rfl
      hpl (by norm_num)]
    rw [hcbe]
    rw [readLoop_eos (mkContext q tag) tokNone k 2 [] stF rfl]
    simp
  have hfetch : implFetch d stF (mkContext q tag) tokNone
      = (FetchResult.hit ReadOutcome.ok, stF,
         isCacheHitEvents stF q p
           ++ (Event.fileOpenRead p :: [Event.meshCb m, Event.elemCb ⟨42, pl⟩])) := by
    have hrc : readCache p (mkContext q tag) tokNone stF
        = (stF, Event.fileOpenRead p :: [Event.meshCb m, Event.elemCb ⟨42, pl⟩],
           ReadOutcome.ok) := by
      unfold readCache
      simp only [hcont, hread]
    simp [implFetch, hq, hh2, hrc]
  have hchain : roundTripChain d q tag st0 m pl
      = implFetch d stF (mkContext q tag) tokNone := by
    unfold roundTripChain
    simp only [hw1, hwm, hwe, ha, hb, hu1]
  rw [hchain, hfetch]
  have hev : isCacheHitEvents stF q p = [Event.regFind q, Event.fileProbe p] := by
    simp [isCacheHitEvents, hstFdef, hsess]
  refine ⟨rfl, ?_⟩
  rw [hev]
  simp [callbackEvents]

/-- C1 witness: the round-trip holds on a clean miss from the empty world
with mesh payload `[9]` and element `(42, [8])`. -/
theorem C1_roundtrip_clean_miss_witness :
    (roundTripChain "w/" ⟨5, 0, 0⟩ "u" ⟨[], []⟩ ⟨[(9 : Byte)]⟩ [(8 : Byte)]).1
        = FetchResult.hit ReadOutcome.ok
    ∧ callbackEvents (roundTripChain "w/" ⟨5, 0, 0⟩ "u" ⟨[], []⟩ ⟨[(9 : Byte)]⟩ [(8 : Byte)]).2.2
        = [Event.meshCb ⟨[(9 : Byte)]⟩, Event.elemCb ⟨42, [(8 : Byte)]⟩] :=
  C1_roundtrip_clean_miss "w/" ⟨5, 0, 0⟩ "u" ⟨[], []⟩ ⟨[(9 : Byte)]⟩ [(8 : Byte)]
    rfl rfl (by norm_num) (by norm_num)

end MeshCacheSpec
